import Mathlib

/-!
# Verification of the kURL bundle server (`src/cmd/server/main.go`)

Shallow embedding of the bundle HTTP handler. External effects (the upstream
manifest service, HTTP HEAD probes, image pulls, remote layer downloads,
archive writes to the client) are modelled by an `Env` of oracles, and one
invocation of the handler is modelled as the list of observable events it
produces, in program order. The Go standard-library behaviour the handler
relies on is modelled where it is observable:

* `http.Error(w, msg, code)` sets a `Content-Type` header, writes the status
  code (a no-op if the response is already committed) and then writes
  `msg` followed by a newline (`fmt.Fprintln`).
* a response is committed at the first `WriteHeader` or body write; the tar
  and gzip writers emit their first bytes to the `ResponseWriter` on the
  first archive write, which is when the implicit `200` is committed.
* `filepath.Join("kurl", name)` is `Clean("kurl" + "/" + name)` with the
  lexical path cleaning of Go's `path/filepath` package, modelled here
  character-for-character on slash-separated paths (`goClean`).

Go `map` iteration order is unspecified; the order in which the handler
ranges over `bundle.Files` is therefore an extra input `fileOrder` of the
model, constrained to be a permutation of the manifest's file list.
-/

namespace KurlServer

/-- The bundle manifest (`BundleManifest` in main.go): layers, files and
images. `files` is a Go `map[string]string`; it is modelled as the
association list obtained from the JSON object. -/
structure BundleManifest where
  layers : List String
  files : List (String × String)
  images : List String
deriving DecidableEq, Repr

/-- UTF-8 bytes of a string, as naturals (`[]byte(contents)` in Go). -/
def strBytes (s : String) : List Nat :=
  (s.data.flatMap String.utf8EncodeChar).map (fun b => b.toNat)

/-! ## Go lexical path cleaning (`path/filepath` on slash paths) -/

/-- Split a character list on `/` separators (components may be empty). -/
def splitSlash : List Char → List (List Char)
  | [] => [[]]
  | c :: rest =>
    if c = '/' then [] :: splitSlash rest
    else
      match splitSlash rest with
      | [] => [[c]]
      | comp :: comps => (c :: comp) :: comps

/-- Join components with `/` separators (inverse of `splitSlash`). -/
def joinSlash : List (List Char) → List Char
  | [] => []
  | [c] => c
  | c :: cs => c ++ '/' :: joinSlash cs

/-- The component processing of Go's `Clean`: drop empty and `.` components,
let `..` cancel a preceding non-`..` component; at the root, `..` is kept
for relative paths and dropped for rooted ones. The accumulator `stack`
holds the already-processed components in reverse. -/
def cleanStack (rooted : Bool) : List (List Char) → List (List Char) → List (List Char)
  | stack, [] => stack.reverse
  | stack, c :: cs =>
    if c = [] ∨ c = ['.'] then cleanStack rooted stack cs
    else if c = ['.', '.'] then
      match stack with
      | [] =>
        if rooted then cleanStack rooted [] cs
        else cleanStack rooted [['.', '.']] cs
      | top :: rest =>
        if top = ['.', '.'] then cleanStack rooted (c :: top :: rest) cs
        else cleanStack rooted rest cs
    else cleanStack rooted (c :: stack) cs

/-- Reassemble a cleaned path from its components: an empty result is `.`
(or `/` when rooted), otherwise the components joined by `/`, with a
leading `/` when rooted. -/
def goCleanCore (rooted : Bool) (comps : List (List Char)) : List Char :=
  if comps = [] then (if rooted then ['/'] else ['.'])
  else (if rooted then ['/'] else []) ++ joinSlash comps

/-- Go's `filepath.Clean` on the character list of a slash-separated path:
the empty path cleans to `.`; otherwise the path is rooted iff it starts
with `/`, and its components are processed by `cleanStack`. -/
def goCleanChars : List Char → List Char
  | [] => ['.']
  | c :: cs => goCleanCore (c == '/') (cleanStack (c == '/') [] (splitSlash (c :: cs)))

/-- Go's `filepath.Clean` for slash-separated paths. -/
def goClean (s : String) : String := String.mk (goCleanChars s.data)

/-- Go's `filepath.Join` on two elements: empty elements are skipped, the
rest are joined with `/` and cleaned. -/
def goJoin (a b : String) : String :=
  if a = "" then (if b = "" then "" else goClean b)
  else goClean (a ++ "/" ++ b)

/-- A path is a clean relative path (the shape `foo/bar.txt`) when every
slash-separated component is nonempty and none is `.` or `..`. -/
def cleanRelPath (s : String) : Prop :=
  ∀ c ∈ splitSlash s.data, c ≠ [] ∧ c ≠ ['.'] ∧ c ≠ ['.', '.']

instance (s : String) : Decidable (cleanRelPath s) := by
  unfold cleanRelPath; infer_instance

/-! ## The registry allowlist validator (`allowRegistry`) -/

/-- The fixed registry apex-domain allowlist (the `switch` in `allowRegistry`). -/
def allowlist : List String :=
  ["docker.io", "gcr.io", "ghcr.io", "azurecr.io", "ttl.sh",
   "ecr.us-east-1.amazonaws.com"]

/-- `allowRegistry` from main.go. `parseHost` models
`url.Parse(fmt.Sprintf("https://%s", image))` followed by `.Hostname()`
(`none` is a parse error), and `etld1` models
`publicsuffix.EffectiveTLDPlusOne` (`none` is an error, in which case the
returned host string is empty and the error is discarded). -/
def allowRegistry (parseHost : String → Option String)
    (etld1 : String → Option String) (image : String) : Bool :=
  match parseHost ("https://" ++ image) with
  | none => false
  | some hostname =>
    let host := (etld1 hostname).getD ""
    allowlist.contains host

/-! ## Events and the environment -/

/-- A logical archive entry: tar header fields plus the content bytes that
were streamed for it. -/
structure TarEntry where
  name : String
  size : Nat
  mode : Nat
  mtime : Nat
  content : List Nat
deriving DecidableEq, Repr

/-- An entry of a remote layer archive, as delivered by the remote source. -/
structure LayerEntry where
  name : String
  mode : Nat
  mtime : Nat
  content : List Nat
deriving DecidableEq, Repr

/-- Result of streaming one remote layer in `pipe`: the entries fully
relayed before either clean EOF (`clean = true`) or a mid-stream read
error (`clean = false`). -/
structure LayerResult where
  entries : List LayerEntry
  clean : Bool
deriving DecidableEq, Repr

/-- Result of materializing one image (the parse/tempdir/policy/copy/open
chain of the image loop): `failed` is any error before the archive entry
header is written, `copyFailed` is an error while copying the image archive
after its header (with the header's declared size and the bytes that made
it out), `ok` is a successful materialization. -/
inductive PullResult
  | failed
  | copyFailed (declaredSize : Nat) (partialBytes : List Nat)
  | ok (content : List Nat)
deriving DecidableEq, Repr

/-- Whether a pull succeeded. -/
def PullResult.isOk : PullResult → Bool
  | .ok _ => true
  | _ => false

/-- Observable events of one handler invocation, in program order. -/
inductive Ev
  | setHeader (k v : String)
  | commit (code : Nat)
  | text (s : String)
  | upstreamFetch
  | probe (url : String)
  | allowCheck (image : String)
  | pullImage (idx : Nat) (image : String)
  | fetchLayer (url : String)
  | entry (e : TarEntry)
  | reportErr
  | closeArchive
  | closeGzip
deriving DecidableEq, Repr

/-- The environment of external collaborators for one request. -/
structure Env where
  /-- Outcome of the upstream manifest fetch (`http.DefaultClient.Do` plus
  `ioutil.ReadAll`): `none` is a transport or body-read error, otherwise
  the upstream status code and body. -/
  upstream : Option (Nat × String)
  /-- `json.Unmarshal` of the upstream body into a `BundleManifest`. -/
  parseManifest : String → Option BundleManifest
  /-- `http.Head` of a layer URL: `none` is a transport error. -/
  headStatus : String → Option Nat
  /-- `url.Parse("https://" + image).Hostname()`. -/
  parseHost : String → Option String
  /-- `publicsuffix.EffectiveTLDPlusOne`. -/
  etld1 : String → Option String
  /-- Image materialization outcome for the image at a given index. -/
  pull : Nat → String → PullResult
  /-- Remote layer download/decompress outcome: `none` is a transport
  error, a non-200 GET status, or a gunzip failure before any entry. -/
  layer : String → Option LayerResult
  /-- Whether writing a manifest file's content to the archive succeeds. -/
  fileWriteOk : String → Bool
  /-- `time.Now()` for this request, stamped into written tar headers. -/
  now : Nat

/-! ## Stdlib pieces the handler calls -/

/-- `http.StatusText` for the codes the handler uses. -/
def statusText : Nat → String := fun c =>
  if c = 500 then "Internal Server Error"
  else if c = 422 then "Unprocessable Entity"
  else if c = 405 then "Method Not Allowed"
  else if c = 404 then "Not Found"
  else ""

/-- `http.Error(w, msg, code)`: set `Content-Type`, write the header (a
no-op when already committed — see `finalStatus`), print `msg` plus a
trailing newline. -/
def httpErrorEvs (msg : String) (code : Nat) : List Ev :=
  [Ev.setHeader "Content-Type" "text/plain; charset=utf-8", Ev.commit code,
   Ev.text (msg ++ "\n")]

/-- `handleHttpError` in main.go: log, `http.Error` with the generic status
text, report to bugsnag. -/
def handleHttpErrorEvs (code : Nat) : List Ev :=
  httpErrorEvs (statusText code) code ++ [Ev.reportErr]

/-! ## The bundle handler -/

/-- HTTP methods as the handler branches on them. -/
inductive Method
  | GET
  | HEAD
  | OPTIONS
  | other
deriving DecidableEq, Repr

/-- The CORS preflight response of the `OPTIONS` branch. -/
def corsEvs : List Ev :=
  [Ev.setHeader "Access-Control-Allow-Origin" "*",
   Ev.setHeader "Access-Control-Allow-Methods" "GET",
   Ev.setHeader "Access-Control-Allow-Headers" "Access-Control-Allow-Origin, Content-Type",
   Ev.setHeader "Access-Control-Max-Age" "86400",
   Ev.commit 204]

/-- The response headers set before streaming (main.go lines 163-166). -/
def bundleHeaderEvs : List Ev :=
  [Ev.setHeader "Content-Type" "binary/octet-stream",
   Ev.setHeader "Access-Control-Allow-Origin" "*",
   Ev.setHeader "Content-Disposition" "attachment",
   Ev.setHeader "Transfer-Encoding" "chunked"]

/-- The layer reachability preflight (main.go lines 139-153): `http.Head`
each layer URL in order, stopping at the first transport error or non-200
status. Returns the probe events and whether all probes passed. -/
def probeLayers (env : Env) : List String → List Ev × Bool
  | [] => ([], true)
  | u :: rest =>
    match env.headStatus u with
    | none => ([Ev.probe u], false)
    | some s =>
      if s = 200 then
        let pr := probeLayers env rest
        (Ev.probe u :: pr.1, pr.2)
      else ([Ev.probe u], false)

/-- The registry allowlist preflight (main.go lines 155-161): check each
image in order, stopping at the first denial. -/
def checkImages (env : Env) : List String → List Ev × Bool
  | [] => ([], true)
  | img :: rest =>
    if allowRegistry env.parseHost env.etld1 img then
      let ck := checkImages env rest
      (Ev.allowCheck img :: ck.1, ck.2)
    else ([Ev.allowCheck img], false)

/-- The synthetic archive entry name of the image at index `i`. -/
def imageEntryName (i : Nat) : String :=
  "kurl/image-overrides/" ++ toString i ++ ".tar"

/-- The image loop (main.go lines 188-277): per image, materialize it and
append it as an archive entry; any failure runs `handleHttpError` and
returns. -/
def imagesLoop (env : Env) : Nat → List String → List Ev × Bool
  | _, [] => ([], true)
  | i, img :: rest =>
    match env.pull i img with
    | .failed => (Ev.pullImage i img :: handleHttpErrorEvs 500, false)
    | .copyFailed sz bs =>
      (Ev.pullImage i img ::
        Ev.entry ⟨imageEntryName i, sz, 0o644, env.now, bs⟩ ::
        handleHttpErrorEvs 500, false)
    | .ok content =>
      let tail := imagesLoop env (i + 1) rest
      (Ev.pullImage i img ::
        Ev.entry ⟨imageEntryName i, content.length, 0o644, env.now, content⟩ ::
        tail.1, tail.2)

/-- The output archive entry produced from one remote layer entry by
`pipe`: the name is re-rooted with `filepath.Join("kurl", header.Name)`,
everything else is passed through. -/
def relayTarEntry (e : LayerEntry) : TarEntry :=
  ⟨goJoin "kurl" e.name, e.content.length, e.mode, e.mtime, e.content⟩

/-- `pipe` from main.go: GET the layer, gunzip it, and relay its tar
entries with re-rooted names. Returns the events and whether EOF was
reached cleanly. -/
def pipe (env : Env) (srcURL : String) : List Ev × Bool :=
  match env.layer srcURL with
  | none => ([Ev.fetchLayer srcURL], false)
  | some res =>
    (Ev.fetchLayer srcURL :: res.entries.map (fun e => Ev.entry (relayTarEntry e)),
     res.clean)

/-- The layer loop (main.go lines 279-285): `pipe` each layer; an error is
logged and reported (`handleError`) and ends the request. -/
def layersLoop (env : Env) : List String → List Ev × Bool
  | [] => ([], true)
  | u :: rest =>
    let pr := pipe env u
    if pr.2 then
      let tail := layersLoop env rest
      (pr.1 ++ tail.1, tail.2)
    else (pr.1 ++ [Ev.reportErr], false)

/-- The archive entry for one manifest file. -/
def fileTarEntry (env : Env) (p : String × String) : TarEntry :=
  ⟨p.1, (strBytes p.2).length, 0o644, env.now, strBytes p.2⟩

/-- The file loop (main.go lines 287-300): write each manifest file's
header and content; a write error is logged and reported and ends the
request. On a failed write the header has still been emitted (its error is
not checked in the source); the content bytes of the failed write are not
modelled. -/
def filesLoop (env : Env) : List (String × String) → List Ev × Bool
  | [] => ([], true)
  | p :: rest =>
    if env.fileWriteOk p.1 then
      let tail := filesLoop env rest
      (Ev.entry (fileTarEntry env p) :: tail.1, tail.2)
    else
      ([Ev.entry ⟨p.1, (strBytes p.2).length, 0o644, env.now, []⟩, Ev.reportErr],
       false)

/-- The streaming section (main.go lines 172-300): images, then layers,
then files, with the deferred `archive.Close()` and `wz.Close()` always
running at the end. -/
def streamSection (env : Env) (man : BundleManifest)
    (fileOrder : List (String × String)) : List Ev :=
  (let im := imagesLoop env 0 man.images
   if im.2 then
     let la := layersLoop env man.layers
     if la.2 then
       let fl := filesLoop env fileOrder
       im.1 ++ la.1 ++ fl.1
     else im.1 ++ la.1
   else im.1)
  ++ [Ev.closeArchive, Ev.closeGzip]

/-- The GET/HEAD body of `bundle`: resolve the manifest upstream (404
passed through verbatim via `http.Error`), preflight the layers and the
image registries, commit the response headers, and — for GET only — stream
the archive. -/
def bundleGetHead (env : Env) (fileOrder : List (String × String))
    (isHead : Bool) : List Ev :=
  Ev.upstreamFetch ::
    match env.upstream with
    | none => handleHttpErrorEvs 500
    | some st =>
      if st.1 = 404 then httpErrorEvs st.2 404
      else
        match env.parseManifest st.2 with
        | none => handleHttpErrorEvs 500
        | some man =>
          let pr := probeLayers env man.layers
          if pr.2 then
            let ck := checkImages env man.images
            if ck.2 then
              pr.1 ++ ck.1 ++ bundleHeaderEvs ++
                (if isHead then [] else streamSection env man fileOrder)
            else pr.1 ++ ck.1 ++ handleHttpErrorEvs 422
          else pr.1 ++ handleHttpErrorEvs 500

/-- The `bundle` handler from main.go, as the event trace of one request. -/
def bundle (method : Method) (env : Env)
    (fileOrder : List (String × String)) : List Ev :=
  match method with
  | .OPTIONS => corsEvs
  | .other => httpErrorEvs "Method Not Allowed" 405
  | .GET => bundleGetHead env fileOrder false
  | .HEAD => bundleGetHead env fileOrder true

/-! ## Observations of a trace -/

/-- The HTTP status on the wire: the first `WriteHeader` wins, and the
first archive or body write commits an implicit `200`; a handler that
returns without writing gets `200` from `net/http`. -/
def finalStatus : List Ev → Nat
  | [] => 200
  | Ev.commit c :: _ => c
  | Ev.entry _ :: _ => 200
  | Ev.text _ :: _ => 200
  | _ :: rest => finalStatus rest

/-- The archive entries written, in order. -/
def respEntries (t : List Ev) : List TarEntry :=
  t.filterMap fun e =>
    match e with
    | Ev.entry en => some en
    | _ => none

/-- The image pulls performed, in order. -/
def pullsOf (t : List Ev) : List (Nat × String) :=
  t.filterMap fun e =>
    match e with
    | Ev.pullImage i img => some (i, img)
    | _ => none

/-- The layer GET downloads performed, in order. -/
def layerFetchesOf (t : List Ev) : List String :=
  t.filterMap fun e =>
    match e with
    | Ev.fetchLayer u => some u
    | _ => none

/-- The layer HEAD probes performed, in order. -/
def probesOf (t : List Ev) : List String :=
  t.filterMap fun e =>
    match e with
    | Ev.probe u => some u
    | _ => none

/-- The registry allowlist checks performed, in order. -/
def allowChecksOf (t : List Ev) : List String :=
  t.filterMap fun e =>
    match e with
    | Ev.allowCheck img => some img
    | _ => none

/-- The plain-text body bytes written (from `http.Error`). -/
def bodyTextOf (t : List Ev) : String :=
  String.join (t.filterMap fun e =>
    match e with
    | Ev.text s => some s
    | _ => none)

/-- The response headers on the wire: `Header().Set` calls made before the
response is committed. -/
def wireHeaders : List Ev → List (String × String)
  | [] => []
  | Ev.setHeader k v :: rest => (k, v) :: wireHeaders rest
  | Ev.commit _ :: _ => []
  | Ev.entry _ :: _ => []
  | Ev.text _ :: _ => []
  | _ :: rest => wireHeaders rest

/-- No body bytes (text or archive data) are written before the first
explicit status commit. -/
def noBodyBeforeCommit : List Ev → Bool
  | [] => true
  | Ev.commit _ :: _ => true
  | Ev.entry _ :: _ => false
  | Ev.text _ :: _ => false
  | _ :: rest => noBodyBeforeCommit rest

/-- An archive write commits the response (to `200`) before any explicit
status commit: the situation after which an error can no longer change the
status. -/
def entryBeforeCommit : List Ev → Bool
  | [] => false
  | Ev.commit _ :: _ => false
  | Ev.entry _ :: _ => true
  | Ev.text _ :: _ => false
  | _ :: rest => entryBeforeCommit rest

/-- Events that neither write body bytes nor commit a status. -/
def Ev.isNeutral : Ev → Bool
  | Ev.commit _ => false
  | Ev.entry _ => false
  | Ev.text _ => false
  | _ => true

/-! ## Success-shape helpers -/

/-- The content of a successful pull. -/
def pullContent (env : Env) (i : Nat) (img : String) : List Nat :=
  match env.pull i img with
  | .ok c => c
  | _ => []

/-- The archive entry of the image at index `i` on a successful pull. -/
def imageTarEntry (env : Env) (i : Nat) (img : String) : TarEntry :=
  ⟨imageEntryName i, (pullContent env i img).length, 0o644, env.now,
   pullContent env i img⟩

/-- The entries of a layer as delivered by the environment. -/
def layerEntriesOf (env : Env) (u : String) : List LayerEntry :=
  ((env.layer u).getD ⟨[], true⟩).entries

/-- The archive entry list of a fully successful GET request: image entries
in manifest order, then every layer's entries in manifest order (re-rooted
under `kurl`), then the manifest files in iteration order. -/
def successEntries (env : Env) (man : BundleManifest)
    (fileOrder : List (String × String)) : List TarEntry :=
  (List.enumFrom 0 man.images).map (fun p => imageTarEntry env p.1 p.2)
    ++ man.layers.flatMap (fun u => (layerEntriesOf env u).map relayTarEntry)
    ++ fileOrder.map (fileTarEntry env)

/-- An archive entry with its modification timestamp erased (timestamps are
wall-clock at write time and excluded from reproducibility comparisons). -/
def TarEntry.noTime (e : TarEntry) : String × Nat × Nat × List Nat :=
  (e.name, e.size, e.mode, e.content)

/-! ## Lemmas about lexical path cleaning -/

theorem splitSlash_ne_nil (l : List Char) : splitSlash l ≠ [] := by
  cases l with
  | nil => simp [splitSlash]
  | cons c rest =>
    by_cases h : c = '/'
    · simp [splitSlash, h]
    · simp only [splitSlash, if_neg h]
      cases hs : splitSlash rest with
      | nil => simp
      | cons comp comps => simp

theorem splitSlash_append (l r : List Char) (h : ∀ x ∈ l, x ≠ '/') :
    splitSlash (l ++ '/' :: r) = l :: splitSlash r := by
  induction l with
  | nil => simp [splitSlash]
  | cons c cs ih =>
    have hc : c ≠ '/' := h c (by simp)
    have ih2 := ih (fun x hx => h x (by simp [hx]))
    simp only [List.cons_append, splitSlash, if_neg hc, List.append_eq, ih2]

theorem joinSlash_cons (c : Char) (comp : List Char) (comps : List (List Char)) :
    joinSlash ((c :: comp) :: comps) = c :: joinSlash (comp :: comps) := by
  cases comps <;> simp [joinSlash]

theorem joinSlash_splitSlash (l : List Char) : joinSlash (splitSlash l) = l := by
  induction l with
  | nil => simp [splitSlash, joinSlash]
  | cons c rest ih =>
    by_cases h : c = '/'
    · subst h
      simp only [splitSlash, if_pos rfl]
      cases hs : splitSlash rest with
      | nil => exact absurd hs (splitSlash_ne_nil rest)
      | cons a as =>
        rw [hs] at ih
        simp [joinSlash, ih]
    · simp only [splitSlash, if_neg h]
      cases hs : splitSlash rest with
      | nil => exact absurd hs (splitSlash_ne_nil rest)
      | cons a as =>
        rw [hs] at ih
        rw [joinSlash_cons, ih]

theorem cleanStack_allGood (rooted : Bool) (stack : List (List Char))
    (cs : List (List Char))
    (h : ∀ c ∈ cs, c ≠ [] ∧ c ≠ ['.'] ∧ c ≠ ['.', '.']) :
    cleanStack rooted stack cs = stack.reverse ++ cs := by
  induction cs generalizing stack with
  | nil => simp [cleanStack]
  | cons c cs ih =>
    obtain ⟨h1, h2, h3⟩ := h c (by simp)
    have hOr : ¬(c = [] ∨ c = ['.']) := by simp [h1, h2]
    simp only [cleanStack, if_neg hOr, if_neg h3]
    rw [ih _ (fun x hx => (h x (by simp [hx])))]
    simp

/-- On a clean relative path, prepending the `kurl/` directory and cleaning
leaves the path intact: the cleaned result is `kurl/` plus the path. -/
theorem goCleanChars_kurl (nd : List Char)
    (h : ∀ c ∈ splitSlash nd, c ≠ [] ∧ c ≠ ['.'] ∧ c ≠ ['.', '.']) :
    goCleanChars ('k' :: 'u' :: 'r' :: 'l' :: '/' :: nd)
      = 'k' :: 'u' :: 'r' :: 'l' :: '/' :: nd := by
  obtain ⟨x, xs, hxs⟩ : ∃ x xs, splitSlash nd = x :: xs := by
    cases hs : splitSlash nd with
    | nil => exact absurd hs (splitSlash_ne_nil _)
    | cons a as => exact ⟨a, as, rfl⟩
  have hsplit : splitSlash ('k' :: 'u' :: 'r' :: 'l' :: '/' :: nd)
      = ['k', 'u', 'r', 'l'] :: splitSlash nd := by
    have := splitSlash_append ['k', 'u', 'r', 'l'] nd (by decide)
    simpa using this
  have hgood : ∀ c ∈ ['k', 'u', 'r', 'l'] :: splitSlash nd,
      c ≠ [] ∧ c ≠ ['.'] ∧ c ≠ ['.', '.'] := by
    intro c hc
    rcases List.mem_cons.mp hc with h1 | h2
    · subst h1; exact ⟨by decide, by decide, by decide⟩
    · exact h c h2
  rw [goCleanChars, hsplit, cleanStack_allGood _ _ _ hgood]
  rw [goCleanCore]
  simp only [List.reverse_nil, List.nil_append]
  rw [if_neg (by simp)]
  rw [hxs, joinSlash_cons, joinSlash_cons, joinSlash_cons, joinSlash_cons]
  simp only [joinSlash, List.nil_append]
  rw [← hxs, joinSlash_splitSlash]
  simp

/-- `filepath.Join("kurl", name)` on a clean relative `name` is plain
prefixing with the `kurl/` directory. -/
theorem goJoin_kurl (n : String) (h : cleanRelPath n) :
    goJoin "kurl" n = "kurl/" ++ n := by
  rw [goJoin, if_neg (by decide)]
  apply String.ext
  show goCleanChars ("kurl" ++ "/" ++ n).data = ("kurl/" ++ n).data
  have hd : ("kurl" ++ "/" ++ n).data = 'k' :: 'u' :: 'r' :: 'l' :: '/' :: n.data := by
    simp [String.data_append]
  have hd2 : ("kurl/" ++ n).data = 'k' :: 'u' :: 'r' :: 'l' :: '/' :: n.data := by
    simp [String.data_append]
  rw [hd, hd2]
  exact goCleanChars_kurl n.data h

/-! ## Trace observation lemmas -/

theorem finalStatus_append_neutral (evs t : List Ev)
    (h : ∀ e ∈ evs, e.isNeutral = true) :
    finalStatus (evs ++ t) = finalStatus t := by
  induction evs with
  | nil => rfl
  | cons e evs ih =>
    have he := h e (by simp)
    have ht := ih (fun x hx => h x (by simp [hx]))
    cases e <;> simp_all [finalStatus, Ev.isNeutral]

theorem finalStatus_of_entryBeforeCommit (t : List Ev)
    (h : entryBeforeCommit t = true) : finalStatus t = 200 := by
  induction t with
  | nil => simp [entryBeforeCommit] at h
  | cons e rest ih => cases e <;> simp_all [entryBeforeCommit, finalStatus]

theorem noBodyBeforeCommit_append_neutral (evs t : List Ev)
    (h : ∀ e ∈ evs, e.isNeutral = true) :
    noBodyBeforeCommit (evs ++ t) = noBodyBeforeCommit t := by
  induction evs with
  | nil => rfl
  | cons e evs ih =>
    have he := h e (by simp)
    have ht := ih (fun x hx => h x (by simp [hx]))
    cases e <;> simp_all [noBodyBeforeCommit, Ev.isNeutral]

/-! ## Preflight loop lemmas -/

theorem probeLayers_ok (env : Env) (ls : List String)
    (h : ∀ u ∈ ls, env.headStatus u = some 200) :
    probeLayers env ls = (ls.map Ev.probe, true) := by
  induction ls with
  | nil => rfl
  | cons u rest ih =>
    have hu := h u (by simp)
    simp [probeLayers, hu, ih (fun x hx => h x (by simp [hx]))]

theorem probeLayers_fst_shape (env : Env) (ls : List String) :
    ∃ us : List String, (probeLayers env ls).1 = us.map Ev.probe := by
  induction ls with
  | nil => exact ⟨[], rfl⟩
  | cons u rest ih =>
    obtain ⟨us, hus⟩ := ih
    cases hh : env.headStatus u with
    | none => exact ⟨[u], by simp [probeLayers, hh]⟩
    | some s =>
      by_cases h200 : s = 200
      · exact ⟨u :: us, by simp [probeLayers, hh, h200, hus]⟩
      · exact ⟨[u], by simp [probeLayers, hh, h200]⟩

theorem probeLayers_fail (env : Env) (ls : List String)
    (h : ∃ u ∈ ls, env.headStatus u ≠ some 200) :
    (probeLayers env ls).2 = false := by
  induction ls with
  | nil => simp at h
  | cons u rest ih =>
    obtain ⟨v, hv, hne⟩ := h
    cases hh : env.headStatus u with
    | none => simp [probeLayers, hh]
    | some s =>
      by_cases h200 : s = 200
      · subst h200
        rcases List.mem_cons.mp hv with rfl | hvr
        · exact absurd hh hne
        · simp only [probeLayers, hh, if_pos rfl]
          exact ih ⟨v, hvr, hne⟩
      · simp [probeLayers, hh, h200]

theorem checkImages_ok (env : Env) (imgs : List String)
    (h : ∀ img ∈ imgs, allowRegistry env.parseHost env.etld1 img = true) :
    checkImages env imgs = (imgs.map Ev.allowCheck, true) := by
  induction imgs with
  | nil => rfl
  | cons img rest ih =>
    have hi := h img (by simp)
    simp [checkImages, hi, ih (fun x hx => h x (by simp [hx]))]

theorem checkImages_fst_shape (env : Env) (imgs : List String) :
    ∃ js : List String, (checkImages env imgs).1 = js.map Ev.allowCheck := by
  induction imgs with
  | nil => exact ⟨[], rfl⟩
  | cons img rest ih =>
    obtain ⟨js, hjs⟩ := ih
    by_cases ha : allowRegistry env.parseHost env.etld1 img = true
    · exact ⟨img :: js, by simp [checkImages, ha, hjs]⟩
    · exact ⟨[img], by simp [checkImages, ha]⟩

theorem checkImages_fail (env : Env) (imgs : List String)
    (h : ∃ img ∈ imgs, allowRegistry env.parseHost env.etld1 img = false) :
    (checkImages env imgs).2 = false := by
  induction imgs with
  | nil => simp at h
  | cons img rest ih =>
    obtain ⟨j, hj, hne⟩ := h
    by_cases ha : allowRegistry env.parseHost env.etld1 img = true
    · rcases List.mem_cons.mp hj with rfl | hjr
      · rw [ha] at hne; exact absurd hne (by simp)
      · simp only [checkImages, if_pos ha]
        exact ih ⟨j, hjr, hne⟩
    · simp [checkImages, ha]

/-! ## Streaming loop lemmas -/

theorem imagesLoop_ok (env : Env) (i0 : Nat) (imgs : List String)
    (h : ∀ p ∈ List.enumFrom i0 imgs, (env.pull p.1 p.2).isOk = true) :
    imagesLoop env i0 imgs
      = ((List.enumFrom i0 imgs).flatMap
          (fun p => [Ev.pullImage p.1 p.2, Ev.entry (imageTarEntry env p.1 p.2)]),
         true) := by
  induction imgs generalizing i0 with
  | nil => rfl
  | cons img rest ih =>
    have h0 := h (i0, img) (by simp)
    cases hp : env.pull i0 img with
    | failed => rw [hp] at h0; simp [PullResult.isOk] at h0
    | copyFailed sz bs => rw [hp] at h0; simp [PullResult.isOk] at h0
    | ok content =>
      have ihr := ih (i0 + 1) (fun p hp2 => h p (by simp [hp2]))
      simp [imagesLoop, hp, ihr, imageTarEntry, pullContent]

theorem layersLoop_ok (env : Env) (ls : List String)
    (h : ∀ u ∈ ls, ∃ res, env.layer u = some res ∧ res.clean = true) :
    layersLoop env ls
      = (ls.flatMap (fun u => Ev.fetchLayer u ::
          (layerEntriesOf env u).map (fun e => Ev.entry (relayTarEntry e))),
         true) := by
  induction ls with
  | nil => rfl
  | cons u rest ih =>
    obtain ⟨res, hres, hclean⟩ := h u (by simp)
    have ihr := ih (fun x hx => h x (by simp [hx]))
    simp [layersLoop, pipe, hres, hclean, ihr, layerEntriesOf]

theorem filesLoop_ok (env : Env) (ord : List (String × String))
    (h : ∀ p ∈ ord, env.fileWriteOk p.1 = true) :
    filesLoop env ord = (ord.map (fun p => Ev.entry (fileTarEntry env p)), true) := by
  induction ord with
  | nil => rfl
  | cons p rest ih =>
    have hp := h p (by simp)
    simp [filesLoop, hp, ih (fun x hx => h x (by simp [hx]))]

theorem streamSection_ok (env : Env) (man : BundleManifest)
    (ord : List (String × String))
    (hI : ∀ p ∈ List.enumFrom 0 man.images, (env.pull p.1 p.2).isOk = true)
    (hL : ∀ u ∈ man.layers, ∃ res, env.layer u = some res ∧ res.clean = true)
    (hF : ∀ p ∈ ord, env.fileWriteOk p.1 = true) :
    streamSection env man ord
      = (List.enumFrom 0 man.images).flatMap
          (fun p => [Ev.pullImage p.1 p.2, Ev.entry (imageTarEntry env p.1 p.2)])
        ++ man.layers.flatMap (fun u => Ev.fetchLayer u ::
            (layerEntriesOf env u).map (fun e => Ev.entry (relayTarEntry e)))
        ++ ord.map (fun p => Ev.entry (fileTarEntry env p))
        ++ [Ev.closeArchive, Ev.closeGzip] := by
  simp only [streamSection, imagesLoop_ok env 0 man.images hI,
    layersLoop_ok env man.layers hL, filesLoop_ok env ord hF]
  simp

theorem streamSection_ends_closed (env : Env) (man : BundleManifest)
    (ord : List (String × String)) :
    ∃ pre, streamSection env man ord = pre ++ [Ev.closeArchive, Ev.closeGzip] :=
  ⟨_, rfl⟩

/-! ## Handler decomposition lemmas -/

theorem bundleGetHead_resolved (env : Env) (ord : List (String × String))
    (isHead : Bool) (st : Nat) (body : String) (man : BundleManifest)
    (hup : env.upstream = some (st, body)) (h404 : st ≠ 404)
    (hman : env.parseManifest body = some man)
    (hprobe : ∀ u ∈ man.layers, env.headStatus u = some 200)
    (hallow : ∀ img ∈ man.images, allowRegistry env.parseHost env.etld1 img = true) :
    bundleGetHead env ord isHead
      = Ev.upstreamFetch :: (man.layers.map Ev.probe
          ++ (man.images.map Ev.allowCheck ++ (bundleHeaderEvs
          ++ (if isHead then [] else streamSection env man ord)))) := by
  simp only [bundleGetHead, hup, hman, probeLayers_ok env man.layers hprobe,
    checkImages_ok env man.images hallow, h404]
  simp [List.append_assoc]

theorem bundleGetHead_probeFail (env : Env) (ord : List (String × String))
    (isHead : Bool) (st : Nat) (body : String) (man : BundleManifest)
    (hup : env.upstream = some (st, body)) (h404 : st ≠ 404)
    (hman : env.parseManifest body = some man)
    (hfail : ∃ u ∈ man.layers, env.headStatus u ≠ some 200) :
    ∃ us : List String, bundleGetHead env ord isHead
      = Ev.upstreamFetch :: (us.map Ev.probe ++ handleHttpErrorEvs 500) := by
  obtain ⟨us, hus⟩ := probeLayers_fst_shape env man.layers
  refine ⟨us, ?_⟩
  simp only [bundleGetHead, hup, hman, h404]
  simp [probeLayers_fail env man.layers hfail, hus]

theorem bundleGetHead_denied (env : Env) (ord : List (String × String))
    (isHead : Bool) (st : Nat) (body : String) (man : BundleManifest)
    (hup : env.upstream = some (st, body)) (h404 : st ≠ 404)
    (hman : env.parseManifest body = some man)
    (hprobe : ∀ u ∈ man.layers, env.headStatus u = some 200)
    (hdeny : ∃ img ∈ man.images, allowRegistry env.parseHost env.etld1 img = false) :
    ∃ js : List String, bundleGetHead env ord isHead
      = Ev.upstreamFetch :: (man.layers.map Ev.probe
          ++ (js.map Ev.allowCheck ++ handleHttpErrorEvs 422)) := by
  obtain ⟨js, hjs⟩ := checkImages_fst_shape env man.images
  refine ⟨js, ?_⟩
  simp only [bundleGetHead, hup, hman, h404, probeLayers_ok env man.layers hprobe]
  simp [checkImages_fail env man.images hdeny, hjs, List.append_assoc]

/-! ## Claim C8 — layer re-rooting -/

/-- C8: for every remote layer archive entry whose path is a clean relative
path (the `foo/bar.txt` shape: nonempty slash-separated components, none of
them `.` or `..`), the relayer writes the entry with `kurl/` prepended to
its path and the byte content passed through unchanged. -/
theorem c8_relay_reroots_under_kurl (e : LayerEntry) (h : cleanRelPath e.name) :
    relayTarEntry e
      = ⟨"kurl/" ++ e.name, e.content.length, e.mode, e.mtime, e.content⟩ := by
  simp [relayTarEntry, goJoin_kurl e.name h]

/-- Witness for C8 at the entry `foo/bar.txt`. -/
theorem c8_witness :
    cleanRelPath "foo/bar.txt"
      ∧ relayTarEntry ⟨"foo/bar.txt", 420, 9, [7, 8]⟩
          = ⟨"kurl/foo/bar.txt", 2, 420, 9, [7, 8]⟩ := by
  refine ⟨by decide, ?_⟩
  rw [c8_relay_reroots_under_kurl ⟨"foo/bar.txt", 420, 9, [7, 8]⟩ (by decide)]
  decide

/-! ## Claim C9 — the re-rooting is not a prefix guarantee -/

/-- C9: a remote layer entry named `../x` is rewritten (join plus lexical
clean) to `x`, which does not begin with the `kurl/` prefix: the re-rooting
is not a prefix guarantee over all inputs. -/
theorem c9_relay_escapes_kurl :
    relayTarEntry ⟨"../x", 420, 0, [1]⟩ = ⟨"x", 1, 420, 0, [1]⟩
      ∧ "kurl/".isPrefixOf "x" = false := by decide

/-! ## Claim C10 — allowlist denial on parse or apex-derivation failure -/

/-- C10: an image reference whose synthetic URL fails to parse, or whose
hostname has no derivable public-suffix apex domain, is denied: the parse
failure returns `false` outright, and a failed apex derivation leaves the
empty host string, which matches no allowlist entry (and indeed the empty
string is in the allowlist's membership test never found). -/
theorem c10_allowRegistry_denies (parseHost etld1 : String → Option String)
    (image : String)
    (h : parseHost ("https://" ++ image) = none
        ∨ ∃ hn, parseHost ("https://" ++ image) = some hn ∧ etld1 hn = none) :
    allowRegistry parseHost etld1 image = false
      ∧ allowlist.contains "" = false := by
  refine ⟨?_, by decide⟩
  rcases h with h | ⟨hn, h1, h2⟩
  · simp [allowRegistry, h]
  · simp only [allowRegistry, h1, h2]
    decide

/-- Hostname oracle of the witness for C10: the bare single-label reference
`nginx` parses to hostname `nginx` (while the tagged form `nginx:latest`
fails URL parsing because `latest` is not a numeric port). -/
def parseHostNginx : String → Option String :=
  fun s => if s = "https://nginx" then some "nginx" else none

/-- Apex-derivation oracle of the witness for C10: a single-label hostname
has no effective-TLD-plus-one. -/
def etld1NoApex : String → Option String := fun _ => none

/-- Witness for C10 at the bare Docker Hub style reference `nginx`. -/
theorem c10_witness :
    (parseHostNginx ("https://" ++ "nginx") = some "nginx"
        ∧ etld1NoApex "nginx" = none)
      ∧ allowRegistry parseHostNginx etld1NoApex "nginx" = false :=
  ⟨⟨by decide, rfl⟩,
    (c10_allowRegistry_denies parseHostNginx etld1NoApex "nginx"
      (Or.inr ⟨"nginx", by decide, rfl⟩)).1⟩

/-! ## Claim C5 — upstream 404 passthrough -/

/-- Environment in which the upstream manifest lookup returns 404 with the
body `not found`. -/
def env404 : Env where
  upstream := some (404, "not found")
  parseManifest := fun _ => none
  headStatus := fun _ => none
  parseHost := fun _ => none
  etld1 := fun _ => none
  pull := fun _ _ => .failed
  layer := fun _ => none
  fileWriteOk := fun _ => false
  now := 0

/-- Counterexample for C5: on an upstream 404 with body `not found`, the
handler does respond 404, but the body it writes is `not found` followed
by a newline (`http.Error` terminates the message with `fmt.Fprintln`), so
the response body is not identical to the upstream body. -/
theorem c5_counterexample :
    finalStatus (bundle .GET env404 []) = 404
      ∧ bodyTextOf (bundle .GET env404 []) ≠ "not found"
      ∧ bodyTextOf (bundle .GET env404 []) = "not found" ++ "\n" := by decide

/-- C5 as amended: on an upstream 404 the handler responds 404 — not an
internal error — with the upstream body passed through plus a single
trailing newline appended by `http.Error`, and writes no archive data. -/
theorem c5_amended_404_passthrough (env : Env) (ord : List (String × String))
    (body : String) (hup : env.upstream = some (404, body)) :
    finalStatus (bundle .GET env ord) = 404
      ∧ bodyTextOf (bundle .GET env ord) = body ++ "\n"
      ∧ respEntries (bundle .GET env ord) = [] := by
  have hb : bundle .GET env ord
      = Ev.upstreamFetch :: httpErrorEvs body 404 := by
    simp [bundle, bundleGetHead, hup]
  rw [hb]
  refine ⟨rfl, ?_, rfl⟩
  simp [bodyTextOf, httpErrorEvs, String.join]

/-- Witness for C5's amended theorem at the body `not found`. -/
theorem c5_witness :
    env404.upstream = some (404, "not found")
      ∧ finalStatus (bundle .GET env404 []) = 404
      ∧ bodyTextOf (bundle .GET env404 []) = "not found" ++ "\n" :=
  ⟨rfl, (c5_amended_404_passthrough env404 [] "not found" rfl).1,
    (c5_amended_404_passthrough env404 [] "not found" rfl).2.1⟩

/-! ## Observation homomorphisms and streaming-section facts -/

theorem respEntries_append (a b : List Ev) :
    respEntries (a ++ b) = respEntries a ++ respEntries b := by
  simp [respEntries]

theorem probesOf_append (a b : List Ev) :
    probesOf (a ++ b) = probesOf a ++ probesOf b := by
  simp [probesOf]

theorem pullsOf_append (a b : List Ev) :
    pullsOf (a ++ b) = pullsOf a ++ pullsOf b := by
  simp [pullsOf]

theorem layerFetchesOf_append (a b : List Ev) :
    layerFetchesOf (a ++ b) = layerFetchesOf a ++ layerFetchesOf b := by
  simp [layerFetchesOf]

theorem allowChecksOf_append (a b : List Ev) :
    allowChecksOf (a ++ b) = allowChecksOf a ++ allowChecksOf b := by
  simp [allowChecksOf]

/-- The streaming section is one of three shapes, depending on where (if
anywhere) the first streaming error occurs. -/
theorem streamSection_cases (env : Env) (man : BundleManifest)
    (ord : List (String × String)) :
    streamSection env man ord
        = (imagesLoop env 0 man.images).1 ++ [Ev.closeArchive, Ev.closeGzip]
      ∨ streamSection env man ord
        = (imagesLoop env 0 man.images).1 ++ (layersLoop env man.layers).1
            ++ [Ev.closeArchive, Ev.closeGzip]
      ∨ streamSection env man ord
        = (imagesLoop env 0 man.images).1 ++ (layersLoop env man.layers).1
            ++ (filesLoop env ord).1 ++ [Ev.closeArchive, Ev.closeGzip] := by
  cases h1 : (imagesLoop env 0 man.images).2
  · exact Or.inl (by simp [streamSection, h1])
  · cases h2 : (layersLoop env man.layers).2
    · exact Or.inr (Or.inl (by simp [streamSection, h1, h2]))
    · exact Or.inr (Or.inr (by simp [streamSection, h1, h2]))

theorem probesOf_imagesLoop (env : Env) (i0 : Nat) (imgs : List String) :
    probesOf (imagesLoop env i0 imgs).1 = [] := by
  induction imgs generalizing i0 with
  | nil => rfl
  | cons img rest ih =>
    cases hp : env.pull i0 img with
    | failed => simp [imagesLoop, hp, probesOf, handleHttpErrorEvs, httpErrorEvs]
    | copyFailed sz bs =>
      simp [imagesLoop, hp, probesOf, handleHttpErrorEvs, httpErrorEvs]
    | ok content =>
      have hdec : (imagesLoop env i0 (img :: rest)).1
          = Ev.pullImage i0 img
            :: Ev.entry ⟨imageEntryName i0, content.length, 0o644, env.now, content⟩
            :: (imagesLoop env (i0 + 1) rest).1 := by
        simp [imagesLoop, hp]
      rw [hdec]
      have ih2 := ih (i0 + 1)
      simp only [probesOf, List.filterMap_cons] at ih2 ⊢
      exact ih2

theorem probesOf_pipe (env : Env) (u : String) :
    probesOf (pipe env u).1 = [] := by
  cases hl : env.layer u with
  | none => simp [pipe, hl, probesOf]
  | some res =>
    simp [pipe, hl, probesOf, List.filterMap_map, Function.comp]

theorem probesOf_layersLoop (env : Env) (ls : List String) :
    probesOf (layersLoop env ls).1 = [] := by
  induction ls with
  | nil => rfl
  | cons u rest ih =>
    cases h2 : (pipe env u).2
    · have hdec : (layersLoop env (u :: rest)).1 = (pipe env u).1 ++ [Ev.reportErr] := by
        simp [layersLoop, h2]
      rw [hdec, probesOf_append, probesOf_pipe]
      rfl
    · have hdec : (layersLoop env (u :: rest)).1
          = (pipe env u).1 ++ (layersLoop env rest).1 := by
        simp [layersLoop, h2]
      rw [hdec, probesOf_append, probesOf_pipe, ih]
      rfl

theorem probesOf_filesLoop (env : Env) (ord : List (String × String)) :
    probesOf (filesLoop env ord).1 = [] := by
  induction ord with
  | nil => rfl
  | cons p rest ih =>
    cases hw : env.fileWriteOk p.1
    · simp [filesLoop, hw, probesOf]
    · have hdec : (filesLoop env (p :: rest)).1
          = Ev.entry (fileTarEntry env p) :: (filesLoop env rest).1 := by
        simp [filesLoop, hw]
      rw [hdec]
      simp only [probesOf, List.filterMap_cons] at ih ⊢
      exact ih

theorem probesOf_streamSection (env : Env) (man : BundleManifest)
    (ord : List (String × String)) :
    probesOf (streamSection env man ord) = [] := by
  rcases streamSection_cases env man ord with h | h | h <;> rw [h]
  · rw [probesOf_append, probesOf_imagesLoop]
    rfl
  · rw [probesOf_append, probesOf_append, probesOf_imagesLoop, probesOf_layersLoop]
    rfl
  · rw [probesOf_append, probesOf_append, probesOf_append, probesOf_imagesLoop,
      probesOf_layersLoop, probesOf_filesLoop]
    rfl

theorem probesOf_cons_upstreamFetch (t : List Ev) :
    probesOf (Ev.upstreamFetch :: t) = probesOf t := rfl

theorem probesOf_map_probe : ∀ us : List String, probesOf (us.map Ev.probe) = us
  | [] => rfl
  | u :: rest => by
    rw [List.map_cons,
      show probesOf (Ev.probe u :: rest.map Ev.probe)
        = u :: probesOf (rest.map Ev.probe) from rfl,
      probesOf_map_probe rest]

theorem probesOf_map_allowCheck :
    ∀ js : List String, probesOf (js.map Ev.allowCheck) = []
  | [] => rfl
  | _ :: rest => probesOf_map_allowCheck rest

theorem probesOf_bundleHeaderEvs : probesOf bundleHeaderEvs = [] := rfl

theorem probesOf_handleHttpErrorEvs (code : Nat) :
    probesOf (handleHttpErrorEvs code) = [] := rfl

/-- The resolved, fully preflight-passing GET request decomposed. -/
theorem bundleGet_resolved (env : Env) (ord : List (String × String))
    (st : Nat) (body : String) (man : BundleManifest)
    (hup : env.upstream = some (st, body)) (h404 : st ≠ 404)
    (hman : env.parseManifest body = some man)
    (hprobe : ∀ u ∈ man.layers, env.headStatus u = some 200)
    (hallow : ∀ img ∈ man.images, allowRegistry env.parseHost env.etld1 img = true) :
    bundle .GET env ord
      = Ev.upstreamFetch :: (man.layers.map Ev.probe
          ++ (man.images.map Ev.allowCheck
          ++ (bundleHeaderEvs ++ streamSection env man ord))) := by
  have h := bundleGetHead_resolved env ord false st body man hup h404 hman hprobe hallow
  simpa using h

/-- The resolved, fully preflight-passing HEAD request decomposed: it ends
after the response headers, with no streaming section. -/
theorem bundleHead_resolved (env : Env) (ord : List (String × String))
    (st : Nat) (body : String) (man : BundleManifest)
    (hup : env.upstream = some (st, body)) (h404 : st ≠ 404)
    (hman : env.parseManifest body = some man)
    (hprobe : ∀ u ∈ man.layers, env.headStatus u = some 200)
    (hallow : ∀ img ∈ man.images, allowRegistry env.parseHost env.etld1 img = true) :
    bundle .HEAD env ord
      = Ev.upstreamFetch :: (man.layers.map Ev.probe
          ++ (man.images.map Ev.allowCheck ++ bundleHeaderEvs)) := by
  have h := bundleGetHead_resolved env ord true st body man hup h404 hman hprobe hallow
  simpa using h

/-! ## Claim C1 — denied registry: 422 and no work -/

/-- Counterexample environment for C1: the manifest contains a denied
image (`evil.example.com/foo`, apex domain `example.com`, not in the
allowlist) and also a layer whose HEAD probe returns 404. -/
def envDeniedUnreachable : Env where
  upstream := some (200, "B")
  parseManifest := fun b =>
    if b = "B" then some ⟨["http://dead"], [], ["evil.example.com/foo"]⟩ else none
  headStatus := fun u => if u = "http://dead" then some 404 else some 200
  parseHost := fun s =>
    if s = "https://evil.example.com/foo" then some "evil.example.com" else none
  etld1 := fun h => if h = "evil.example.com" then some "example.com" else none
  pull := fun _ _ => .ok [1]
  layer := fun _ => some ⟨[], true⟩
  fileWriteOk := fun _ => true
  now := 0

/-- Counterexample for C1 as frozen: this manifest contains an image
denied by the registry allowlist, yet the handler responds 500, not 422 —
the layer reachability probes (main.go lines 139-153) run before the
allowlist check (lines 155-161), and the probe of `http://dead` fails
first. -/
theorem c1_counterexample :
    (∃ img ∈ (⟨["http://dead"], [], ["evil.example.com/foo"]⟩ : BundleManifest).images,
        allowRegistry envDeniedUnreachable.parseHost envDeniedUnreachable.etld1 img = false)
      ∧ envDeniedUnreachable.parseManifest "B"
          = some ⟨["http://dead"], [], ["evil.example.com/foo"]⟩
      ∧ finalStatus (bundle .GET envDeniedUnreachable []) = 500
      ∧ finalStatus (bundle .GET envDeniedUnreachable []) ≠ 422 := by decide

/-- C1 as amended: on a resolved manifest whose layer reachability probes
(which run first) all pass, if any image reference is denied by the
registry allowlist, the handler responds 422 and performs no image pulls,
no layer downloads and no archive writes. -/
theorem c1_denied_registry_422 (env : Env) (ord : List (String × String))
    (st : Nat) (body : String) (man : BundleManifest)
    (hup : env.upstream = some (st, body)) (h404 : st ≠ 404)
    (hman : env.parseManifest body = some man)
    (hprobe : ∀ u ∈ man.layers, env.headStatus u = some 200)
    (hdeny : ∃ img ∈ man.images, allowRegistry env.parseHost env.etld1 img = false) :
    finalStatus (bundle .GET env ord) = 422
      ∧ pullsOf (bundle .GET env ord) = []
      ∧ layerFetchesOf (bundle .GET env ord) = []
      ∧ respEntries (bundle .GET env ord) = [] := by
  obtain ⟨js, hjs⟩ :=
    bundleGetHead_denied env ord false st body man hup h404 hman hprobe hdeny
  have hb : bundle .GET env ord
      = Ev.upstreamFetch :: (man.layers.map Ev.probe
          ++ (js.map Ev.allowCheck ++ handleHttpErrorEvs 422)) := hjs
  rw [hb]
  refine ⟨?_, ?_, ?_, ?_⟩
  · show finalStatus (man.layers.map Ev.probe
        ++ (js.map Ev.allowCheck ++ handleHttpErrorEvs 422)) = 422
    rw [finalStatus_append_neutral _ _
        (by intro e he; obtain ⟨u, _, rfl⟩ := List.mem_map.mp he; rfl),
      finalStatus_append_neutral _ _
        (by intro e he; obtain ⟨u, _, rfl⟩ := List.mem_map.mp he; rfl)]
    rfl
  · simp [pullsOf, List.filterMap_map, Function.comp, handleHttpErrorEvs, httpErrorEvs]
  · simp [layerFetchesOf, List.filterMap_map, Function.comp, handleHttpErrorEvs, httpErrorEvs]
  · simp [respEntries, List.filterMap_map, Function.comp, handleHttpErrorEvs, httpErrorEvs]

/-- Witness environment: resolved manifest with one reachable layer and a
denied image registry (`evil.example.com`, whose apex domain is
`example.com`, not in the allowlist). -/
def envDenied : Env where
  upstream := some (200, "B")
  parseManifest := fun b =>
    if b = "B" then some ⟨["http://layer1"], [("f", "x")], ["evil.example.com/foo:latest"]⟩
    else none
  headStatus := fun _ => some 200
  parseHost := fun s =>
    if s = "https://evil.example.com/foo:latest" then some "evil.example.com" else none
  etld1 := fun h => if h = "evil.example.com" then some "example.com" else none
  pull := fun _ _ => .ok [1]
  layer := fun _ => some ⟨[], true⟩
  fileWriteOk := fun _ => true
  now := 0

/-- Witness for C1 at a manifest whose single image is
`evil.example.com/foo:latest`. -/
theorem c1_witness :
    (allowRegistry envDenied.parseHost envDenied.etld1 "evil.example.com/foo:latest"
        = false)
      ∧ finalStatus (bundle .GET envDenied []) = 422
      ∧ pullsOf (bundle .GET envDenied []) = []
      ∧ layerFetchesOf (bundle .GET envDenied []) = []
      ∧ respEntries (bundle .GET envDenied []) = [] := by
  refine ⟨by decide, ?_⟩
  exact c1_denied_registry_422 envDenied [] 200 "B"
    ⟨["http://layer1"], [("f", "x")], ["evil.example.com/foo:latest"]⟩
    rfl (by decide) (by decide) (by decide)
    ⟨"evil.example.com/foo:latest", by decide, by decide⟩

/-! ## Claim C6 — layer reachability probes -/

/-- C6: on a resolved manifest the handler probes each layer URL with a
metadata-only HEAD request: when every probe returns 200 each layer URL is
probed exactly once (in manifest order); and when some layer's probe is a
transport error or a non-success status, the handler responds 500 having
performed no image pull, no layer download, no archive write, and no close
of streaming writers, with no body bytes written before the 500 status. -/
theorem c6_layer_probes (env : Env) (ord : List (String × String))
    (st : Nat) (body : String) (man : BundleManifest)
    (hup : env.upstream = some (st, body)) (h404 : st ≠ 404)
    (hman : env.parseManifest body = some man) :
    ((∀ u ∈ man.layers, env.headStatus u = some 200) →
        probesOf (bundle .GET env ord) = man.layers)
      ∧ ((∃ u ∈ man.layers,
            match env.headStatus u with
            | none => True
            | some s => ¬(200 ≤ s ∧ s < 300)) →
          finalStatus (bundle .GET env ord) = 500
            ∧ pullsOf (bundle .GET env ord) = []
            ∧ layerFetchesOf (bundle .GET env ord) = []
            ∧ respEntries (bundle .GET env ord) = []
            ∧ noBodyBeforeCommit (bundle .GET env ord) = true
            ∧ Ev.closeArchive ∉ bundle .GET env ord) := by
  constructor
  · intro hprobe
    by_cases hallow : ∀ img ∈ man.images, allowRegistry env.parseHost env.etld1 img = true
    · rw [bundleGet_resolved env ord st body man hup h404 hman hprobe hallow,
        probesOf_cons_upstreamFetch, probesOf_append, probesOf_map_probe,
        probesOf_append, probesOf_map_allowCheck, probesOf_append,
        probesOf_bundleHeaderEvs, probesOf_streamSection]
      simp
    · have hdeny : ∃ img ∈ man.images,
          allowRegistry env.parseHost env.etld1 img = false := by
        push_neg at hallow
        obtain ⟨img, hmem, hne⟩ := hallow
        exact ⟨img, hmem, by simpa using hne⟩
      obtain ⟨js, hjs⟩ :=
        bundleGetHead_denied env ord false st body man hup h404 hman hprobe hdeny
      rw [show bundle .GET env ord = bundleGetHead env ord false from rfl, hjs,
        probesOf_cons_upstreamFetch, probesOf_append, probesOf_map_probe,
        probesOf_append, probesOf_map_allowCheck, probesOf_handleHttpErrorEvs]
      simp
  · intro hfail
    have hfail2 : ∃ u ∈ man.layers, env.headStatus u ≠ some 200 := by
      obtain ⟨u, hmem, hu⟩ := hfail
      refine ⟨u, hmem, ?_⟩
      cases hh : env.headStatus u with
      | none => simp
      | some s =>
        rw [hh] at hu
        intro hcon
        have : s = 200 := by injection hcon
        subst this
        exact hu ⟨by norm_num, by norm_num⟩
    obtain ⟨us, hus⟩ :=
      bundleGetHead_probeFail env ord false st body man hup h404 hman hfail2
    rw [show bundle .GET env ord = bundleGetHead env ord false from rfl, hus]
    have hneutral : ∀ e ∈ us.map Ev.probe, e.isNeutral = true := by
      intro e he; obtain ⟨u, _, rfl⟩ := List.mem_map.mp he; rfl
    refine ⟨?_, ?_, ?_, ?_, ?_, ?_⟩
    · show finalStatus (us.map Ev.probe ++ handleHttpErrorEvs 500) = 500
      rw [finalStatus_append_neutral _ _ hneutral]
      rfl
    · simp [pullsOf, List.filterMap_map, Function.comp, handleHttpErrorEvs, httpErrorEvs]
    · simp [layerFetchesOf, List.filterMap_map, Function.comp, handleHttpErrorEvs, httpErrorEvs]
    · simp [respEntries, List.filterMap_map, Function.comp, handleHttpErrorEvs, httpErrorEvs]
    · show noBodyBeforeCommit (us.map Ev.probe ++ handleHttpErrorEvs 500) = true
      rw [noBodyBeforeCommit_append_neutral _ _ hneutral]
      rfl
    · simp [handleHttpErrorEvs, httpErrorEvs, List.mem_map]

/-- Witness environment for C6: one layer whose HEAD probe returns 404. -/
def envProbeFail : Env where
  upstream := some (200, "B")
  parseManifest := fun b =>
    if b = "B" then some ⟨["http://dead"], [], ["docker.io/nginx"]⟩ else none
  headStatus := fun u => if u = "http://dead" then some 404 else some 200
  parseHost := fun _ => some "docker.io"
  etld1 := fun h => if h = "docker.io" then some "docker.io" else none
  pull := fun _ _ => .ok [1]
  layer := fun _ => some ⟨[], true⟩
  fileWriteOk := fun _ => true
  now := 0

/-! ## Entries of a successful run -/

theorem respEntries_cons_upstreamFetch (t : List Ev) :
    respEntries (Ev.upstreamFetch :: t) = respEntries t := rfl

theorem respEntries_cons_entry (e : TarEntry) (t : List Ev) :
    respEntries (Ev.entry e :: t) = e :: respEntries t := rfl

theorem respEntries_map_probe : ∀ us : List String, respEntries (us.map Ev.probe) = []
  | [] => rfl
  | _ :: rest => respEntries_map_probe rest

theorem respEntries_map_allowCheck :
    ∀ js : List String, respEntries (js.map Ev.allowCheck) = []
  | [] => rfl
  | _ :: rest => respEntries_map_allowCheck rest

theorem respEntries_bundleHeaderEvs : respEntries bundleHeaderEvs = [] := rfl

theorem respEntries_imagesFlat (env : Env) (ps : List (Nat × String)) :
    respEntries (ps.flatMap
        (fun p => [Ev.pullImage p.1 p.2, Ev.entry (imageTarEntry env p.1 p.2)]))
      = ps.map (fun p => imageTarEntry env p.1 p.2) := by
  induction ps with
  | nil => rfl
  | cons p rest ih =>
    rw [List.flatMap_cons, respEntries_append, ih]
    rfl

theorem respEntries_map_relay (es : List LayerEntry) :
    respEntries (es.map (fun e => Ev.entry (relayTarEntry e))) = es.map relayTarEntry := by
  induction es with
  | nil => rfl
  | cons e rest ih =>
    rw [List.map_cons, respEntries_cons_entry, ih, List.map_cons]

theorem respEntries_layersFlat (env : Env) (ls : List String) :
    respEntries (ls.flatMap (fun u => Ev.fetchLayer u ::
        (layerEntriesOf env u).map (fun e => Ev.entry (relayTarEntry e))))
      = ls.flatMap (fun u => (layerEntriesOf env u).map relayTarEntry) := by
  induction ls with
  | nil => rfl
  | cons u rest ih =>
    rw [List.flatMap_cons, respEntries_append, ih, List.flatMap_cons]
    congr 1
    exact respEntries_map_relay (layerEntriesOf env u)

theorem respEntries_filesMap (env : Env) (ord : List (String × String)) :
    respEntries (ord.map (fun p => Ev.entry (fileTarEntry env p)))
      = ord.map (fileTarEntry env) := by
  induction ord with
  | nil => rfl
  | cons p rest ih =>
    rw [List.map_cons, respEntries_cons_entry, ih, List.map_cons]

/-- On a fully successful GET request, the archive entries are exactly the
success shape: images then re-rooted layer entries then files. -/
theorem respEntries_success (env : Env) (ord : List (String × String))
    (st : Nat) (body : String) (man : BundleManifest)
    (hup : env.upstream = some (st, body)) (h404 : st ≠ 404)
    (hman : env.parseManifest body = some man)
    (hprobe : ∀ u ∈ man.layers, env.headStatus u = some 200)
    (hallow : ∀ img ∈ man.images, allowRegistry env.parseHost env.etld1 img = true)
    (hI : ∀ p ∈ List.enumFrom 0 man.images, (env.pull p.1 p.2).isOk = true)
    (hL : ∀ u ∈ man.layers, ∃ res, env.layer u = some res ∧ res.clean = true)
    (hF : ∀ p ∈ ord, env.fileWriteOk p.1 = true) :
    respEntries (bundle .GET env ord) = successEntries env man ord := by
  rw [bundleGet_resolved env ord st body man hup h404 hman hprobe hallow,
    streamSection_ok env man ord hI hL hF,
    respEntries_cons_upstreamFetch, respEntries_append, respEntries_map_probe,
    respEntries_append, respEntries_map_allowCheck, respEntries_append,
    respEntries_bundleHeaderEvs, respEntries_append, respEntries_append,
    respEntries_append, respEntries_imagesFlat, respEntries_layersFlat,
    respEntries_filesMap]
  have hcl : respEntries [Ev.closeArchive, Ev.closeGzip] = [] := rfl
  simp [successEntries, hcl]

/-- Witness for C6 at a layer URL whose probe returns 404. -/
theorem c6_witness :
    envProbeFail.headStatus "http://dead" = some 404
      ∧ finalStatus (bundle .GET envProbeFail []) = 500
      ∧ pullsOf (bundle .GET envProbeFail []) = []
      ∧ layerFetchesOf (bundle .GET envProbeFail []) = []
      ∧ respEntries (bundle .GET envProbeFail []) = []
      ∧ noBodyBeforeCommit (bundle .GET envProbeFail []) = true := by
  have h := (c6_layer_probes envProbeFail [] 200 "B"
    ⟨["http://dead"], [], ["docker.io/nginx"]⟩ rfl (by decide) (by decide)).2
    ⟨"http://dead", by decide, by show ¬(200 ≤ 404 ∧ 404 < 300); decide⟩
  exact ⟨by decide, h.1, h.2.1, h.2.2.1, h.2.2.2.1, h.2.2.2.2.1⟩

/-! ## Claim C3 — archive entry order -/

/-- C3: on a fully successful GET request the archive entries are, in
order: one entry per image in manifest `images` order (named by index),
then every entry of every layer in manifest `layers` order with each name
re-rooted under the fixed `kurl` prefix directory, then one entry per
manifest file (in the map's iteration order `ord`, a permutation of the
manifest's files). -/
theorem c3_entry_order (env : Env) (ord : List (String × String))
    (st : Nat) (body : String) (man : BundleManifest)
    (hup : env.upstream = some (st, body)) (h404 : st ≠ 404)
    (hman : env.parseManifest body = some man)
    (hprobe : ∀ u ∈ man.layers, env.headStatus u = some 200)
    (hallow : ∀ img ∈ man.images, allowRegistry env.parseHost env.etld1 img = true)
    (hI : ∀ p ∈ List.enumFrom 0 man.images, (env.pull p.1 p.2).isOk = true)
    (hL : ∀ u ∈ man.layers, ∃ res, env.layer u = some res ∧ res.clean = true)
    (hF : ∀ p ∈ ord, env.fileWriteOk p.1 = true)
    (hOrd : ord.Perm man.files) :
    respEntries (bundle .GET env ord) = successEntries env man ord :=
  respEntries_success env ord st body man hup h404 hman hprobe hallow hI hL hF

/-- Witness manifest: one layer, one file, one image. -/
def manFull : BundleManifest :=
  ⟨["http://l1"], [("a", "x")], ["docker.io/nginx"]⟩

/-- Witness environment for a fully successful request. -/
def envFull : Env where
  upstream := some (200, "B")
  parseManifest := fun b => if b = "B" then some manFull else none
  headStatus := fun _ => some 200
  parseHost := fun s => if s = "https://docker.io/nginx" then some "docker.io" else none
  etld1 := fun h => if h = "docker.io" then some "docker.io" else none
  pull := fun _ _ => .ok [1, 2]
  layer := fun _ => some ⟨[⟨"foo/bar.txt", 420, 7, [9]⟩], true⟩
  fileWriteOk := fun _ => true
  now := 5

/-- Witness for C3: the concrete entry order is image 0, then the layer's
re-rooted entry, then the file. -/
theorem c3_witness :
    successEntries envFull manFull [("a", "x")]
        = [⟨"kurl/image-overrides/0.tar", 2, 420, 5, [1, 2]⟩,
           ⟨"kurl/foo/bar.txt", 1, 420, 7, [9]⟩,
           ⟨"a", 1, 420, 5, [120]⟩]
      ∧ respEntries (bundle .GET envFull [("a", "x")])
        = successEntries envFull manFull [("a", "x")] := by
  refine ⟨by decide, ?_⟩
  exact c3_entry_order envFull [("a", "x")] 200 "B" manFull rfl (by decide)
    (by decide) (by decide) (by decide) (by decide) (by decide) (by decide)
    (by decide)

/-! ## Claim C4 — determinism of repeated requests -/

/-- Manifest with two files, for the file-iteration-order counterexample. -/
def manFiles : BundleManifest := ⟨[], [("a", "x"), ("b", "y")], []⟩

/-- Environment resolving to `manFiles`, with no layers and no images. -/
def envFiles : Env where
  upstream := some (200, "B")
  parseManifest := fun b => if b = "B" then some manFiles else none
  headStatus := fun _ => some 200
  parseHost := fun _ => none
  etld1 := fun _ => none
  pull := fun _ _ => .ok []
  layer := fun _ => some ⟨[], true⟩
  fileWriteOk := fun _ => true
  now := 0

/-- Counterexample for C4: two GET requests against the same unchanged
environment, whose Go map iteration happens to enumerate the two manifest
files in different (both legitimate) orders, produce archives whose entry
sequences differ even with timestamps excluded. -/
theorem c4_counterexample :
    ([("a", "x"), ("b", "y")] : List (String × String)).Perm manFiles.files
      ∧ ([("b", "y"), ("a", "x")] : List (String × String)).Perm manFiles.files
      ∧ (respEntries (bundle .GET envFiles [("a", "x"), ("b", "y")])).map TarEntry.noTime
          ≠ (respEntries (bundle .GET envFiles [("b", "y"), ("a", "x")])).map TarEntry.noTime := by
  decide

/-- C4 as amended: two GET requests with the same manifest and unchanged
remote sources produce identical image and layer entry sequences, and file
entry sequences identical up to reordering (the file map's iteration order
is not deterministic), timestamps excluded. -/
theorem c4_amended_deterministic (env : Env)
    (ord1 ord2 : List (String × String))
    (st : Nat) (body : String) (man : BundleManifest)
    (hup : env.upstream = some (st, body)) (h404 : st ≠ 404)
    (hman : env.parseManifest body = some man)
    (hprobe : ∀ u ∈ man.layers, env.headStatus u = some 200)
    (hallow : ∀ img ∈ man.images, allowRegistry env.parseHost env.etld1 img = true)
    (hI : ∀ p ∈ List.enumFrom 0 man.images, (env.pull p.1 p.2).isOk = true)
    (hL : ∀ u ∈ man.layers, ∃ res, env.layer u = some res ∧ res.clean = true)
    (hF1 : ∀ p ∈ ord1, env.fileWriteOk p.1 = true)
    (hF2 : ∀ p ∈ ord2, env.fileWriteOk p.1 = true)
    (hOrd1 : ord1.Perm man.files) (hOrd2 : ord2.Perm man.files) :
    (respEntries (bundle .GET env ord1)).map TarEntry.noTime
        = (successEntries env man []).map TarEntry.noTime
            ++ ord1.map (fun p => (fileTarEntry env p).noTime)
      ∧ (respEntries (bundle .GET env ord2)).map TarEntry.noTime
        = (successEntries env man []).map TarEntry.noTime
            ++ ord2.map (fun p => (fileTarEntry env p).noTime)
      ∧ ((respEntries (bundle .GET env ord1)).map TarEntry.noTime).Perm
          ((respEntries (bundle .GET env ord2)).map TarEntry.noTime) := by
  have h1 := respEntries_success env ord1 st body man hup h404 hman hprobe hallow hI hL hF1
  have h2 := respEntries_success env ord2 st body man hup h404 hman hprobe hallow hI hL hF2
  have hshape : ∀ ord : List (String × String),
      (successEntries env man ord).map TarEntry.noTime
        = (successEntries env man []).map TarEntry.noTime
            ++ ord.map (fun p => (fileTarEntry env p).noTime) := by
    intro ord
    simp [successEntries, List.map_append, List.map_map, Function.comp]
  refine ⟨by rw [h1]; exact hshape ord1, by rw [h2]; exact hshape ord2, ?_⟩
  rw [h1, h2, hshape ord1, hshape ord2]
  exact List.Perm.append_left _
    ((hOrd1.trans hOrd2.symm).map (fun p => (fileTarEntry env p).noTime))

/-- Witness for C4's amended theorem on `manFiles` with the two iteration
orders of the counterexample: the outputs are permutations of one
another. -/
theorem c4_witness :
    ((respEntries (bundle .GET envFiles [("a", "x"), ("b", "y")])).map TarEntry.noTime).Perm
      ((respEntries (bundle .GET envFiles [("b", "y"), ("a", "x")])).map TarEntry.noTime) :=
  (c4_amended_deterministic envFiles [("a", "x"), ("b", "y")] [("b", "y"), ("a", "x")]
    200 "B" manFiles rfl (by decide) (by decide) (by decide) (by decide)
    (by decide) (by decide) (by decide) (by decide) (by decide) (by decide)).2.2

/-! ## Claim C2 — mid-stream errors cannot change the HTTP status -/

/-- C2: for a GET request that reached streaming (manifest resolved and
both preflight checks passed), if an error is reported and the response
was already committed by an archive write before any explicit status
write, then the status on the wire stays the already-sent 200 — the
`http.Error` call inside the image loop cannot change it — and the handler
still runs the deferred finalization, closing the archive writer and then
the gzip writer, leaving the client a truncated archive under the 200. -/
theorem c2_midstream_error_keeps_200 (env : Env) (ord : List (String × String))
    (st : Nat) (body : String) (man : BundleManifest)
    (hup : env.upstream = some (st, body)) (h404 : st ≠ 404)
    (hman : env.parseManifest body = some man)
    (hprobe : ∀ u ∈ man.layers, env.headStatus u = some 200)
    (hallow : ∀ img ∈ man.images, allowRegistry env.parseHost env.etld1 img = true)
    (herr : Ev.reportErr ∈ bundle .GET env ord)
    (hcommitted : entryBeforeCommit (bundle .GET env ord) = true) :
    finalStatus (bundle .GET env ord) = 200
      ∧ ∃ pre, bundle .GET env ord = pre ++ [Ev.closeArchive, Ev.closeGzip] := by
  refine ⟨finalStatus_of_entryBeforeCommit _ hcommitted, ?_⟩
  obtain ⟨pre0, hpre⟩ := streamSection_ends_closed env man ord
  refine ⟨Ev.upstreamFetch :: (man.layers.map Ev.probe
      ++ (man.images.map Ev.allowCheck ++ (bundleHeaderEvs ++ pre0))), ?_⟩
  rw [bundleGet_resolved env ord st body man hup h404 hman hprobe hallow, hpre]
  simp

/-- Witness environment for C2: the image pull succeeds (committing the
response with the image's archive entry), then the layer download fails
mid-stream. -/
def envMidFail : Env where
  upstream := some (200, "B")
  parseManifest := fun b =>
    if b = "B" then some ⟨["http://bad"], [], ["docker.io/nginx"]⟩ else none
  headStatus := fun _ => some 200
  parseHost := fun s => if s = "https://docker.io/nginx" then some "docker.io" else none
  etld1 := fun h => if h = "docker.io" then some "docker.io" else none
  pull := fun _ _ => .ok [3]
  layer := fun _ => none
  fileWriteOk := fun _ => true
  now := 1

/-- Witness for C2: after a successful image entry commits the response,
the failing layer download is reported but the status stays 200 and the
writers are closed. -/
theorem c2_witness :
    entryBeforeCommit (bundle .GET envMidFail []) = true
      ∧ Ev.reportErr ∈ bundle .GET envMidFail []
      ∧ finalStatus (bundle .GET envMidFail []) = 200 := by
  refine ⟨by decide, by decide, ?_⟩
  exact (c2_midstream_error_keeps_200 envMidFail [] 200 "B"
    ⟨["http://bad"], [], ["docker.io/nginx"]⟩ rfl (by decide) (by decide)
    (by decide) (by decide) (by decide) (by decide)).1

/-! ## Events of a HEAD request -/

/-- Events that are neither streaming work (pull, layer download, archive
write) nor writer finalization. -/
def Ev.isStreamFree : Ev → Bool
  | Ev.pullImage _ _ => false
  | Ev.fetchLayer _ => false
  | Ev.entry _ => false
  | Ev.closeArchive => false
  | Ev.closeGzip => false
  | _ => true

theorem respEntries_eq_nil_of_streamFree (t : List Ev)
    (h : ∀ e ∈ t, e.isStreamFree = true) : respEntries t = [] := by
  simp only [respEntries, List.filterMap_eq_nil_iff]
  intro e he
  have := h e he
  cases e <;> simp_all [Ev.isStreamFree]

theorem pullsOf_eq_nil_of_streamFree (t : List Ev)
    (h : ∀ e ∈ t, e.isStreamFree = true) : pullsOf t = [] := by
  simp only [pullsOf, List.filterMap_eq_nil_iff]
  intro e he
  have := h e he
  cases e <;> simp_all [Ev.isStreamFree]

theorem layerFetchesOf_eq_nil_of_streamFree (t : List Ev)
    (h : ∀ e ∈ t, e.isStreamFree = true) : layerFetchesOf t = [] := by
  simp only [layerFetchesOf, List.filterMap_eq_nil_iff]
  intro e he
  have := h e he
  cases e <;> simp_all [Ev.isStreamFree]

/-- A HEAD request's trace is one of five shapes, none of which contains
streaming work. -/
theorem bundleHead_cases (env : Env) (ord : List (String × String)) :
    bundle .HEAD env ord = Ev.upstreamFetch :: handleHttpErrorEvs 500
      ∨ (∃ b : String, bundle .HEAD env ord = Ev.upstreamFetch :: httpErrorEvs b 404)
      ∨ (∃ us : List String, bundle .HEAD env ord
          = Ev.upstreamFetch :: (us.map Ev.probe ++ handleHttpErrorEvs 500))
      ∨ (∃ us js : List String, bundle .HEAD env ord
          = Ev.upstreamFetch :: (us.map Ev.probe
              ++ (js.map Ev.allowCheck ++ handleHttpErrorEvs 422)))
      ∨ (∃ us js : List String, bundle .HEAD env ord
          = Ev.upstreamFetch :: (us.map Ev.probe
              ++ (js.map Ev.allowCheck ++ bundleHeaderEvs))) := by
  cases hu : env.upstream with
  | none => exact Or.inl (by simp [bundle, bundleGetHead, hu])
  | some stb =>
    by_cases h4 : stb.1 = 404
    · exact Or.inr (Or.inl ⟨stb.2, by simp [bundle, bundleGetHead, hu, h4]⟩)
    · cases hm : env.parseManifest stb.2 with
      | none =>
        exact Or.inr (Or.inr (Or.inl ⟨[],
          by simp [bundle, bundleGetHead, hu, h4, hm]⟩))
      | some man =>
        obtain ⟨us, hus⟩ := probeLayers_fst_shape env man.layers
        obtain ⟨js, hjs⟩ := checkImages_fst_shape env man.images
        cases hpr : (probeLayers env man.layers).2
        · exact Or.inr (Or.inr (Or.inl ⟨us,
            by simp [bundle, bundleGetHead, hu, h4, hm, hpr, hus]⟩))
        · cases hck : (checkImages env man.images).2
          · exact Or.inr (Or.inr (Or.inr (Or.inl ⟨us, js,
              by simp [bundle, bundleGetHead, hu, h4, hm, hpr, hck, hus, hjs]⟩)))
          · exact Or.inr (Or.inr (Or.inr (Or.inr ⟨us, js,
              by simp [bundle, bundleGetHead, hu, h4, hm, hpr, hck, hus, hjs]⟩)))

/-- Every event of a HEAD request is stream-free: the handler returns
before the streaming section on every path. -/
theorem bundleHead_streamFree (env : Env) (ord : List (String × String)) :
    ∀ e ∈ bundle .HEAD env ord, e.isStreamFree = true := by
  intro e he
  rcases bundleHead_cases env ord with ht | ⟨b, ht⟩ | ⟨us, ht⟩ | ⟨us, js, ht⟩ | ⟨us, js, ht⟩ <;>
    rw [ht] at he <;>
    simp only [List.mem_cons, List.mem_append, handleHttpErrorEvs, httpErrorEvs,
      bundleHeaderEvs, List.cons_append, List.nil_append, List.mem_singleton,
      List.not_mem_nil, or_false] at he
  · rcases he with rfl | rfl | rfl | rfl | rfl <;> rfl
  · rcases he with rfl | rfl | rfl | rfl <;> rfl
  · rcases he with rfl | hp | rfl | rfl | rfl | rfl
    · rfl
    · obtain ⟨u, _, rfl⟩ := List.mem_map.mp hp
      rfl
    all_goals rfl
  · rcases he with rfl | hp | hc | rfl | rfl | rfl | rfl
    · rfl
    · obtain ⟨u, _, rfl⟩ := List.mem_map.mp hp
      rfl
    · obtain ⟨img, _, rfl⟩ := List.mem_map.mp hc
      rfl
    all_goals rfl
  · rcases he with rfl | hp | hc | rfl | rfl | rfl | rfl
    · rfl
    · obtain ⟨u, _, rfl⟩ := List.mem_map.mp hp
      rfl
    · obtain ⟨img, _, rfl⟩ := List.mem_map.mp hc
      rfl
    all_goals rfl

theorem upstreamFetch_mem_bundleHead (env : Env) (ord : List (String × String)) :
    Ev.upstreamFetch ∈ bundle .HEAD env ord := by
  show Ev.upstreamFetch ∈ bundleGetHead env ord true
  rw [bundleGetHead]
  exact List.mem_cons_self _ _

theorem neutral_map_probe (us : List String) :
    ∀ e ∈ us.map Ev.probe, e.isNeutral = true := by
  intro e he
  obtain ⟨u, _, rfl⟩ := List.mem_map.mp he
  rfl

theorem neutral_map_allowCheck (js : List String) :
    ∀ e ∈ js.map Ev.allowCheck, e.isNeutral = true := by
  intro e he
  obtain ⟨j, _, rfl⟩ := List.mem_map.mp he
  rfl

theorem allowChecksOf_cons_upstreamFetch (t : List Ev) :
    allowChecksOf (Ev.upstreamFetch :: t) = allowChecksOf t := rfl

theorem allowChecksOf_map_probe :
    ∀ us : List String, allowChecksOf (us.map Ev.probe) = []
  | [] => rfl
  | _ :: rest => allowChecksOf_map_probe rest

theorem allowChecksOf_map_allowCheck :
    ∀ js : List String, allowChecksOf (js.map Ev.allowCheck) = js
  | [] => rfl
  | j :: rest => by
    rw [List.map_cons,
      show allowChecksOf (Ev.allowCheck j :: rest.map Ev.allowCheck)
        = j :: allowChecksOf (rest.map Ev.allowCheck) from rfl,
      allowChecksOf_map_allowCheck rest]

theorem allowChecksOf_bundleHeaderEvs : allowChecksOf bundleHeaderEvs = [] := rfl

theorem wireHeaders_cons_upstreamFetch (t : List Ev) :
    wireHeaders (Ev.upstreamFetch :: t) = wireHeaders t := rfl

theorem wireHeaders_map_probe_append :
    ∀ (us : List String) (t : List Ev), wireHeaders (us.map Ev.probe ++ t) = wireHeaders t
  | [], _ => rfl
  | _ :: rest, t => wireHeaders_map_probe_append rest t

theorem wireHeaders_map_allowCheck_append :
    ∀ (js : List String) (t : List Ev),
      wireHeaders (js.map Ev.allowCheck ++ t) = wireHeaders t
  | [], _ => rfl
  | _ :: rest, t => wireHeaders_map_allowCheck_append rest t

/-- The four response headers committed on a passing request. -/
def committedHeaders : List (String × String) :=
  [("Content-Type", "binary/octet-stream"),
   ("Access-Control-Allow-Origin", "*"),
   ("Content-Disposition", "attachment"),
   ("Transfer-Encoding", "chunked")]

theorem wireHeaders_bundleHeaderEvs_append (t : List Ev) :
    wireHeaders (bundleHeaderEvs ++ t) = committedHeaders ++ wireHeaders t := rfl

theorem wireHeaders_bundleHeaderEvs : wireHeaders bundleHeaderEvs = committedHeaders := rfl

theorem wireHeaders_eq_nil_of_no_setHeader (t : List Ev)
    (h : ∀ k v, Ev.setHeader k v ∉ t) : wireHeaders t = [] := by
  induction t with
  | nil => rfl
  | cons e rest ih =>
    have ih2 : ∀ k v, Ev.setHeader k v ∉ rest :=
      fun k v hm => h k v (List.mem_cons_of_mem _ hm)
    cases e with
    | setHeader k v => exact absurd (List.mem_cons_self _ _) (h k v)
    | commit c => rfl
    | entry e2 => rfl
    | text s => rfl
    | upstreamFetch => exact ih ih2
    | probe u => exact ih ih2
    | allowCheck i => exact ih ih2
    | pullImage i im => exact ih ih2
    | fetchLayer u => exact ih ih2
    | reportErr => exact ih ih2
    | closeArchive => exact ih ih2
    | closeGzip => exact ih ih2

/-- A fully successful streaming section never touches the response
headers. -/
theorem setHeader_not_mem_streamSection (env : Env) (man : BundleManifest)
    (ord : List (String × String))
    (hI : ∀ p ∈ List.enumFrom 0 man.images, (env.pull p.1 p.2).isOk = true)
    (hL : ∀ u ∈ man.layers, ∃ res, env.layer u = some res ∧ res.clean = true)
    (hF : ∀ p ∈ ord, env.fileWriteOk p.1 = true) :
    ∀ k v, Ev.setHeader k v ∉ streamSection env man ord := by
  rw [streamSection_ok env man ord hI hL hF]
  intro k v hmem
  simp only [List.mem_append, List.mem_flatMap, List.mem_map, List.mem_cons,
    List.mem_singleton, List.not_mem_nil, or_false] at hmem
  rcases hmem with ((⟨p, _, hm⟩ | ⟨u, _, hm⟩) | ⟨p, _, hm⟩) | hm
  · rcases hm with hm | hm <;> simp at hm
  · rcases hm with hm | ⟨e2, _, hm⟩ <;> simp at hm
  · simp at hm
  · rcases hm with hm | hm <;> simp at hm

/-- On a fully successful GET, the wire headers are exactly the four
committed bundle headers. -/
theorem wireHeaders_get_success (env : Env) (ord : List (String × String))
    (st : Nat) (body : String) (man : BundleManifest)
    (hup : env.upstream = some (st, body)) (h404 : st ≠ 404)
    (hman : env.parseManifest body = some man)
    (hprobe : ∀ u ∈ man.layers, env.headStatus u = some 200)
    (hallow : ∀ img ∈ man.images, allowRegistry env.parseHost env.etld1 img = true)
    (hI : ∀ p ∈ List.enumFrom 0 man.images, (env.pull p.1 p.2).isOk = true)
    (hL : ∀ u ∈ man.layers, ∃ res, env.layer u = some res ∧ res.clean = true)
    (hF : ∀ p ∈ ord, env.fileWriteOk p.1 = true) :
    wireHeaders (bundle .GET env ord) = committedHeaders := by
  rw [bundleGet_resolved env ord st body man hup h404 hman hprobe hallow,
    wireHeaders_cons_upstreamFetch, wireHeaders_map_probe_append,
    wireHeaders_map_allowCheck_append, wireHeaders_bundleHeaderEvs_append,
    wireHeaders_eq_nil_of_no_setHeader _
      (setHeader_not_mem_streamSection env man ord hI hL hF)]
  simp

/-! ## Claim C7 — HEAD requests -/

/-- C7: a HEAD request performs no streaming work on any path (no archive
entries, no image pulls, no layer downloads) and always performs the
upstream manifest resolution; on a resolved manifest with all probes
passing, it probes every layer URL, returns 422 when some image registry
is denied, and on a fully passing manifest it checks every image against
the allowlist, returns 200, and carries the same response headers as the
corresponding (successfully streaming) GET. -/
theorem c7_head_requests (env : Env) (ord : List (String × String)) :
    respEntries (bundle .HEAD env ord) = []
      ∧ pullsOf (bundle .HEAD env ord) = []
      ∧ layerFetchesOf (bundle .HEAD env ord) = []
      ∧ Ev.upstreamFetch ∈ bundle .HEAD env ord
      ∧ ∀ st body man, env.upstream = some (st, body) → st ≠ 404 →
          env.parseManifest body = some man →
          (∀ u ∈ man.layers, env.headStatus u = some 200) →
          probesOf (bundle .HEAD env ord) = man.layers
          ∧ ((∃ img ∈ man.images, allowRegistry env.parseHost env.etld1 img = false) →
              finalStatus (bundle .HEAD env ord) = 422)
          ∧ ((∀ img ∈ man.images, allowRegistry env.parseHost env.etld1 img = true) →
              allowChecksOf (bundle .HEAD env ord) = man.images
              ∧ finalStatus (bundle .HEAD env ord) = 200
              ∧ ((∀ p ∈ List.enumFrom 0 man.images, (env.pull p.1 p.2).isOk = true) →
                  (∀ u ∈ man.layers, ∃ res, env.layer u = some res ∧ res.clean = true) →
                  (∀ p ∈ ord, env.fileWriteOk p.1 = true) →
                  wireHeaders (bundle .HEAD env ord)
                    = wireHeaders (bundle .GET env ord))) := by
  refine ⟨respEntries_eq_nil_of_streamFree _ (bundleHead_streamFree env ord),
    pullsOf_eq_nil_of_streamFree _ (bundleHead_streamFree env ord),
    layerFetchesOf_eq_nil_of_streamFree _ (bundleHead_streamFree env ord),
    upstreamFetch_mem_bundleHead env ord, ?_⟩
  intro st body man hup h404 hman hprobe
  refine ⟨?_, ?_, ?_⟩
  · by_cases hallow : ∀ img ∈ man.images, allowRegistry env.parseHost env.etld1 img = true
    · rw [bundleHead_resolved env ord st body man hup h404 hman hprobe hallow,
        probesOf_cons_upstreamFetch, probesOf_append, probesOf_map_probe,
        probesOf_append, probesOf_map_allowCheck, probesOf_bundleHeaderEvs]
      simp
    · have hdeny : ∃ img ∈ man.images,
          allowRegistry env.parseHost env.etld1 img = false := by
        push_neg at hallow
        obtain ⟨img, hmem, hne⟩ := hallow
        exact ⟨img, hmem, by simpa using hne⟩
      obtain ⟨js, hjs⟩ :=
        bundleGetHead_denied env ord true st body man hup h404 hman hprobe hdeny
      rw [show bundle .HEAD env ord = bundleGetHead env ord true from rfl, hjs,
        probesOf_cons_upstreamFetch, probesOf_append, probesOf_map_probe,
        probesOf_append, probesOf_map_allowCheck, probesOf_handleHttpErrorEvs]
      simp
  · intro hdeny
    obtain ⟨js, hjs⟩ :=
      bundleGetHead_denied env ord true st body man hup h404 hman hprobe hdeny
    rw [show bundle .HEAD env ord = bundleGetHead env ord true from rfl, hjs]
    show finalStatus (man.layers.map Ev.probe
        ++ (js.map Ev.allowCheck ++ handleHttpErrorEvs 422)) = 422
    rw [finalStatus_append_neutral _ _ (neutral_map_probe man.layers),
      finalStatus_append_neutral _ _ (neutral_map_allowCheck js)]
    rfl
  · intro hallow
    refine ⟨?_, ?_, ?_⟩
    · rw [bundleHead_resolved env ord st body man hup h404 hman hprobe hallow,
        allowChecksOf_cons_upstreamFetch, allowChecksOf_append,
        allowChecksOf_map_probe, allowChecksOf_append,
        allowChecksOf_map_allowCheck, allowChecksOf_bundleHeaderEvs]
      simp
    · rw [bundleHead_resolved env ord st body man hup h404 hman hprobe hallow]
      show finalStatus (man.layers.map Ev.probe
          ++ (man.images.map Ev.allowCheck ++ bundleHeaderEvs)) = 200
      rw [finalStatus_append_neutral _ _ (neutral_map_probe man.layers),
        finalStatus_append_neutral _ _ (neutral_map_allowCheck man.images)]
      rfl
    · intro hI hL hF
      rw [wireHeaders_get_success env ord st body man hup h404 hman hprobe hallow hI hL hF,
        bundleHead_resolved env ord st body man hup h404 hman hprobe hallow,
        wireHeaders_cons_upstreamFetch, wireHeaders_map_probe_append,
        wireHeaders_map_allowCheck_append, wireHeaders_bundleHeaderEvs]

/-- Witness for C7 on the fully passing environment: HEAD performs no
streaming work, returns 200, and carries the same headers as the GET. -/
theorem c7_witness :
    respEntries (bundle .HEAD envFull [("a", "x")]) = []
      ∧ pullsOf (bundle .HEAD envFull [("a", "x")]) = []
      ∧ probesOf (bundle .HEAD envFull [("a", "x")]) = manFull.layers
      ∧ finalStatus (bundle .HEAD envFull [("a", "x")]) = 200
      ∧ wireHeaders (bundle .HEAD envFull [("a", "x")])
        = wireHeaders (bundle .GET envFull [("a", "x")]) := by
  have h := c7_head_requests envFull [("a", "x")]
  have h5 := h.2.2.2.2 200 "B" manFull rfl (by decide) (by decide) (by decide)
  have h3 := h5.2.2 (by decide)
  exact ⟨h.1, h.2.1, h5.1, h3.2.1, h3.2.2 (by decide) (by decide) (by decide)⟩

end KurlServer
